import Mathlib

/-!
# Verification of the o65 dump utility (`dump/o65dump.c`)

A shallow embedding of the decoding and rendering logic of `o65dump.c`
into Lean 4, together with theorems settling the frozen claims about the
program.  Pure rendering helpers become Lean functions on byte lists;
the stream-consuming routines become functions from a byte (or record)
list to an `Option` of the produced output paired with the unconsumed
remainder of the stream (`none` models the C functions returning `-1`
on a failed read).  Machine integers are `Nat` with explicit `% 2 ^ 32`
where the C `o65_size_t` arithmetic can overflow or underflow.

The constants and the byte-level readers declared in `o65file.h` are
not part of the dump tool's source; they are modelled from the spec
(section 6, "Boundary contract with the excluded byte-level reader")
and from the o65 format conventions the spec describes, and are marked
as such below.
-/

/-- Modelled from the spec: the mode-word flag selecting 32-bit address
width (`O65_MODE_32BIT` from the missing `o65file.h`).  The claims only
depend on this being one fixed bit of the mode word. -/
def O65_MODE_32BIT : ℕ := 0x2000

/-- Modelled from the spec: the mode-word flag selecting page-wise
relocation granularity (`O65_MODE_PAGED` from the missing `o65file.h`). -/
def O65_MODE_PAGED : ℕ := 0x4000

/-- Modelled from the spec: the mode-word flag announcing that another
image follows in the same file (`O65_MODE_CHAIN`). -/
def O65_MODE_CHAIN : ℕ := 0x0400

/-- Modelled from the spec: mask of the relocation-kind bits of a
relocation type byte (`O65_RELOC_TYPE`). -/
def O65_RELOC_TYPE : ℕ := 0xE0

/-- Modelled from the spec: mask of the segment-id bits of a relocation
type byte (`O65_RELOC_SEGID`). -/
def O65_RELOC_SEGID : ℕ := 0x1F

/-- Modelled from the spec: the WORD relocation kind code. -/
def O65_RELOC_WORD : ℕ := 0x80

/-- Modelled from the spec: the HIGH relocation kind code. -/
def O65_RELOC_HIGH : ℕ := 0x40

/-- Modelled from the spec: the LOW relocation kind code. -/
def O65_RELOC_LOW : ℕ := 0x20

/-- Modelled from the spec: the SEGADR relocation kind code. -/
def O65_RELOC_SEGADR : ℕ := 0xC0

/-- Modelled from the spec: the SEG relocation kind code. -/
def O65_RELOC_SEG : ℕ := 0xA0

/-- Modelled from the spec: the reserved segment id denoting a
reference to an undefined symbol (`O65_SEGID_UNDEF`). -/
def O65_SEGID_UNDEF : ℕ := 0

/-- Modelled from the spec: option type code for a filename record. -/
def O65_OPT_FILENAME : ℕ := 0

/-- Modelled from the spec: option type code for an operating-system
information record. -/
def O65_OPT_OS : ℕ := 1

/-- Modelled from the spec: option type code for an assembler/linker
name record. -/
def O65_OPT_PROGRAM : ℕ := 2

/-- Modelled from the spec: option type code for an author record. -/
def O65_OPT_AUTHOR : ℕ := 3

/-- Modelled from the spec: option type code for a creation-date
record. -/
def O65_OPT_CREATED : ℕ := 4

/-- Modelled from the spec: `o65_size_t` is the unsigned type holding
segment addresses; per the spec it "wraps to the representable range",
the representable range being the larger (32-bit) address width.
All `o65_size_t` arithmetic is taken modulo this constant. -/
def o65_size_mod : ℕ := 2 ^ 32

/-- The decoded `.o65` header (`o65_header_t`): the mode word, the
base/length pair of each segment, and the stack size. -/
structure o65_header_t where
  mode  : ℕ
  tbase : ℕ
  tlen  : ℕ
  dbase : ℕ
  dlen  : ℕ
  bbase : ℕ
  blen  : ℕ
  zbase : ℕ
  zlen  : ℕ
  stack : ℕ
deriving DecidableEq

/-- One decoded relocation entry (`o65_reloc_t`): the offset byte, the
type byte (segment-id bits plus kind bits), the optional extra byte and
the optional undefined-symbol index.  The external `o65_read_reloc`
reader is modelled from the spec as delivering one such entry
atomically per call. -/
structure o65_reloc_t where
  offset  : ℕ
  type    : ℕ
  extra   : ℕ
  undefid : ℕ
deriving DecidableEq

/-- One decoded option record (`o65_option_t`): type code, declared
length (which includes its own 2-byte prefix) and payload bytes.  The
external `o65_read_option` reader is modelled from the spec as
delivering one such record atomically per call. -/
structure o65_option_t where
  type : ℕ
  len  : ℕ
  data : List ℕ
deriving DecidableEq

/-- Modelled from the spec: little-endian 16-bit read
(`o65_read_uint16` of the missing byte-level reader). -/
def o65_read_uint16 (b : List ℕ) : ℕ :=
  b.getD 0 0 + 256 * b.getD 1 0

/-- Modelled from the spec: little-endian 32-bit read
(`o65_read_uint32` of the missing byte-level reader). -/
def o65_read_uint32 (b : List ℕ) : ℕ :=
  b.getD 0 0 + 256 * b.getD 1 0 + 65536 * b.getD 2 0 + 16777216 * b.getD 3 0

/-- Modelled from the spec: the segment display-name lookup table
(`o65_get_segment_name` of the missing `o65file.c`).  The claims do not
depend on the exact names, only on the lookup being total. -/
def o65_get_segment_name (seg : ℕ) : String :=
  if seg = 1 then "abs"
  else if seg = 2 then ".text"
  else if seg = 3 then ".data"
  else if seg = 4 then ".bss"
  else if seg = 5 then ".zero"
  else "unknown"

/-- One hexadecimal digit character, lowercase, as produced by the C
`printf` `%x` conversions. -/
def hexChar (d : ℕ) : Char :=
  if d < 10 then Char.ofNat (48 + d) else Char.ofNat (87 + d)

/-- Minimal hexadecimal digit list of `v` (most significant first),
computed with an explicit fuel argument so that the definition is
structurally recursive; `hexStr` always supplies fuel `v`, which is at
least the number of hex digits of `v`. -/
def hexDigitsGo : ℕ → ℕ → List Char
  | 0, _ => []
  | fuel + 1, v =>
    if v = 0 then [] else hexDigitsGo fuel (v / 16) ++ [hexChar (v % 16)]

/-- The C `printf` `%0*lx` conversion: hexadecimal rendering of `v`
zero-padded on the left to a minimum width `w` (never truncated). -/
def hexStr (w v : ℕ) : String :=
  String.mk (List.replicate (w - (hexDigitsGo v v).length) '0' ++ hexDigitsGo v v)

/-- Rendering of one payload byte by `dump_string` in `o65dump.c`:
printable ASCII passes through, other nonzero bytes become a two-digit
hex escape, a zero byte produces nothing. -/
def dump_string_byte (ch : ℕ) : String :=
  if 32 ≤ ch ∧ ch ≤ 126 then String.mk [Char.ofNat ch]
  else if ch ≠ 0 then "\\x" ++ hexStr 2 ch
  else ""

/-- The loop body of `dump_string`: consume one byte per iteration
while the remaining length is positive.  The `ℕ` argument is the
iteration count `len.toNat`, matching the C countdown `while (len > 0)`
exactly (a non-positive `int` length yields zero iterations). -/
def dump_string_go : List ℕ → ℕ → String
  | _, 0 => ""
  | [], _ + 1 => ""
  | ch :: rest, n + 1 => dump_string_byte ch ++ dump_string_go rest n

/-- `dump_string` of `o65dump.c` (lines 62-72): render `len` bytes of a
buffer through the printable-or-escaped filter; a NUL byte is silently
dropped and does not terminate the loop.  `len` is the C `int`
parameter. -/
def dump_string (data : List ℕ) (len : ℤ) : String :=
  dump_string_go data len.toNat

/-- `dump_nul_string` of `o65dump.c` (lines 74-89): read bytes from the
stream until a NUL terminator, rendering each through the same
printable-or-escaped filter; `none` models the `-1` return on EOF.  On
success it returns the rendered name and the unconsumed remainder of
the stream (the terminator is consumed). -/
def dump_nul_string : List ℕ → Option (String × List ℕ)
  | [] => none
  | ch :: rest =>
    if ch = 0 then some ("", rest)
    else
      match dump_nul_string rest with
      | none => none
      | some (s, rem) =>
        some ((if 32 ≤ ch ∧ ch ≤ 126 then String.mk [Char.ofNat ch]
               else if ch ≠ 0 then "\\x" ++ hexStr 2 ch
               else "") ++ s, rem)

/-- The loop body of `dump_hex`: one " %02x" group per byte while the
remaining length is positive. -/
def dump_hex_go : List ℕ → ℕ → String
  | _, 0 => ""
  | [], _ + 1 => ""
  | ch :: rest, n + 1 => " " ++ hexStr 2 ch ++ dump_hex_go rest n

/-- `dump_hex` of `o65dump.c` (lines 91-98): render `len` bytes as
space-separated two-digit hex groups; `len` is the C `int` parameter
and a non-positive value renders nothing. -/
def dump_hex (data : List ℕ) (len : ℤ) : String :=
  dump_hex_go data len.toNat

/-- The address prefix of a segment dump line, `o65dump.c` lines
103-106: 8 hex digits when the mode word's 32-bit flag is set, 4 when
it is clear. -/
def dump_hex_line_addr (mode addr : ℕ) : String :=
  if mode &&& O65_MODE_32BIT ≠ 0 then hexStr 8 addr else hexStr 4 addr

/-- `dump_hex_line` of `o65dump.c` (lines 100-109): one rendered
segment dump line (without the trailing newline). -/
def dump_hex_line (header : o65_header_t) (addr : ℕ) (data : List ℕ) (len : ℤ) : String :=
  "    " ++ dump_hex_line_addr header.mode addr ++ ":" ++ dump_hex data len

/-- `dump_option` of `o65dump.c` (lines 111-146): one rendered option
line (without the trailing newline).  The payload length handed to the
renderers is the C `int` expression `option->len - 2`. -/
def dump_option (o : o65_option_t) : String :=
  "    " ++
  (if o.type = O65_OPT_FILENAME then
      "Filename: " ++ dump_string o.data ((o.len : ℤ) - 2)
   else if o.type = O65_OPT_OS then
      "Operating System Information:" ++ dump_hex o.data ((o.len : ℤ) - 2)
   else if o.type = O65_OPT_PROGRAM then
      "Assembler/Linker: " ++ dump_string o.data ((o.len : ℤ) - 2)
   else if o.type = O65_OPT_AUTHOR then
      "Author: " ++ dump_string o.data ((o.len : ℤ) - 2)
   else if o.type = O65_OPT_CREATED then
      "Created: " ++ dump_string o.data ((o.len : ℤ) - 2)
   else
      "Option " ++ toString o.type ++ ":" ++ dump_hex o.data ((o.len : ℤ) - 2))

/-- One item of the Options section output: the section header line or
one rendered option line. -/
inductive OptOut where
  | sectionHeader : OptOut
  | optionLine : String → OptOut
deriving DecidableEq

/-- The option-reading loop of `dump_image` (`o65dump.c` lines
394-406): repeatedly obtain a record from the external option reader
(modelled from the spec as consuming the head of a record list, with
`none` for a failed read at end of stream), stop on a zero-length
record, and otherwise render the option, emitting the section header
before the first one only.  Returns the produced output and the
records left unconsumed after the terminator. -/
def dump_image_options : Bool → List o65_option_t → Option (List OptOut × List o65_option_t)
  | _, [] => none
  | have_options, o :: rest =>
    if o.len = 0 then some ([], rest)
    else
      match dump_image_options true rest with
      | none => none
      | some (out, rem) =>
        some ((if have_options then [] else [OptOut.sectionHeader]) ++
                OptOut.optionLine (dump_option o) :: out, rem)

/-- The segment dump loop of `dump_segment` (`o65dump.c` lines
157-169): emit 16-byte lines while at least 16 bytes of declared
length remain, then one final partial line; `none` models a short
read.  The base address is `o65_size_t` arithmetic.  The first `ℕ`
argument is fuel making the recursion structural; `dump_segment_lines`
supplies `len + 1`, which dominates the iteration count. -/
def dump_segment_go (header : o65_header_t) : ℕ → ℕ → ℕ → List ℕ → Option (List String)
  | 0, _, _, _ => none
  | fuel + 1, base, len, stream =>
    if 16 ≤ len then
      if stream.length < 16 then none
      else
        match dump_segment_go header fuel ((base + 16) % o65_size_mod) (len - 16) (stream.drop 16) with
        | none => none
        | some lines =>
          some (dump_hex_line header base (stream.take 16) 16 :: lines)
    else if 0 < len then
      if stream.length < len then none
      else some [dump_hex_line header base (stream.take len) (len : ℤ)]
    else some []

/-- `dump_segment` of `o65dump.c` (lines 148-171), restricted to the
lines it renders: the size line followed by the hex dump lines; the
unconsumed remainder of the stream is returned alongside.  `none`
models the `-1` return on a short read. -/
def dump_segment (header : o65_header_t) (name : String) (base len : ℕ)
    (stream : List ℕ) : Option (List String × List ℕ) :=
  match dump_segment_go header (len + 1) base len stream with
  | none => none
  | some lines => some ((name ++ ": " ++ toString len ++ " bytes") :: lines, stream.drop len)

/-- The relocation-reading loop of `dump_relocs` (`o65dump.c` lines
221-274), reduced to the address computation: the external
`o65_read_reloc` is modelled from the spec as consuming the head of an
entry list (`none` for a failed read at end of stream).  An entry with
offset 0 is the sentinel: the loop stops, consuming it and nothing
more.  Offset 255 advances the `o65_size_t` cursor by 254 without
emitting; any other offset advances the cursor by itself and emits one
relocation at the new cursor address.  Returns the emitted
(address, entry) pairs and the entries left unconsumed. -/
def dump_relocs_go : ℕ → List o65_reloc_t → Option (List (ℕ × o65_reloc_t) × List o65_reloc_t)
  | _, [] => none
  | addr, r :: rest =>
    if r.offset = 0 then some ([], rest)
    else if r.offset = 255 then dump_relocs_go ((addr + 254) % o65_size_mod) rest
    else
      match dump_relocs_go ((addr + r.offset) % o65_size_mod) rest with
      | none => none
      | some (out, rem) => some (((addr + r.offset) % o65_size_mod, r) :: out, rem)

/-- `dump_relocs` of `o65dump.c` (lines 209-276), reduced to the
address computation: the cursor is seeded with `segment base - 1` in
`o65_size_t` arithmetic (`--addr`, wrapping when the base is 0) before
the reading loop runs. -/
def dump_relocs (addr : ℕ) (relocs : List o65_reloc_t) :
    Option (List (ℕ × o65_reloc_t) × List o65_reloc_t) :=
  dump_relocs_go ((addr + (o65_size_mod - 1)) % o65_size_mod) relocs

/-- The address prefix of a relocation line, `o65dump.c` lines 237-240:
8 hex digits when the 32-bit flag is set, 4 when clear. -/
def reloc_addr_str (mode addr : ℕ) : String :=
  if mode &&& O65_MODE_32BIT ≠ 0 then hexStr 8 addr else hexStr 4 addr

/-- The target-segment part of a relocation line, `o65dump.c` lines
243-249: `undef <index>` for the reserved undefined segment id,
otherwise the segment display name. -/
def reloc_seg_str (r : o65_reloc_t) : String :=
  if r.type &&& O65_RELOC_SEGID = O65_SEGID_UNDEF then
    "undef " ++ toString r.undefid
  else
    o65_get_segment_name (r.type &&& O65_RELOC_SEGID)

/-- The relocation-kind part of a relocation line, `o65dump.c` lines
253-272: the fixed enumeration of kinds; HIGH prints its extra byte
only for byte-wise relocation granularity, SEG always prints its extra
byte as a 4-digit value, and unrecognized kinds fall back to
`RELOC-<hex kind>`. -/
def reloc_kind_str (mode : ℕ) (r : o65_reloc_t) : String :=
  if r.type &&& O65_RELOC_TYPE = O65_RELOC_WORD then "WORD"
  else if r.type &&& O65_RELOC_TYPE = O65_RELOC_LOW then "LOW"
  else if r.type &&& O65_RELOC_TYPE = O65_RELOC_SEGADR then "SEGADR"
  else if r.type &&& O65_RELOC_TYPE = O65_RELOC_HIGH then
    if mode &&& O65_MODE_PAGED = 0 then "HIGH " ++ hexStr 2 r.extra else "HIGH"
  else if r.type &&& O65_RELOC_TYPE = O65_RELOC_SEG then
    "SEG " ++ hexStr 4 r.extra
  else
    "RELOC-" ++ hexStr 2 (r.type &&& O65_RELOC_TYPE)

/-- One full rendered relocation line (without the trailing newline),
assembled as `dump_relocs` prints it. -/
def reloc_line (mode : ℕ) (p : ℕ × o65_reloc_t) : String :=
  "    " ++ reloc_addr_str mode p.1 ++ ": " ++ reloc_seg_str p.2 ++ ", " ++
    reloc_kind_str mode p.2

/-- The per-symbol loop of `dump_undefined_symbols` (`o65dump.c` lines
199-205): one `<index>: <name>` line per symbol, the name decoded as a
NUL-terminated string; `none` models a failed read. -/
def undef_sym_loop : ℕ → ℕ → List ℕ → Option (List String × List ℕ)
  | _, 0, stream => some ([], stream)
  | index, n + 1, stream =>
    match dump_nul_string stream with
    | none => none
    | some (s, rest) =>
      match undef_sym_loop (index + 1) n rest with
      | none => none
      | some (out, rem) => some (("    " ++ toString index ++ ": " ++ s) :: out, rem)

/-- `dump_undefined_symbols` of `o65dump.c` (lines 173-207): read the
width-dependent symbol count and dump each name.  The 16-bit branch
demands a successful 2-byte read; the 32-bit branch performs
`fread(buf, 1, 4, file)` but compares the result against 2, exactly as
the source does, so a successful 4-byte read is rejected.  (When that
comparison passes, only 2 bytes were actually consumed and the upper
half of the count buffer is unwritten; the model reads the missing
bytes as 0.) -/
def dump_undefined_symbols (mode : ℕ) (stream : List ℕ) :
    Option (List String × List ℕ) :=
  if mode &&& O65_MODE_32BIT = 0 then
    if (stream.take 2).length ≠ 2 then none
    else
      let count := o65_read_uint16 (stream.take 2)
      let rest := stream.drop 2
      if count = 0 then some (["Undefined Symbols: none"], rest)
      else
        match undef_sym_loop 0 count rest with
        | none => none
        | some (out, rem) => some ("Undefined Symbols:" :: out, rem)
  else
    if (stream.take 4).length ≠ 2 then none
    else
      let count := o65_read_uint32 (stream.take 4)
      let rest := stream.drop 4
      if count = 0 then some (["Undefined Symbols: none"], rest)
      else
        match undef_sym_loop 0 count rest with
        | none => none
        | some (out, rem) => some ("Undefined Symbols:" :: out, rem)

/-- The hex part of an exported-symbol value, `o65dump.c` lines
321-331: 8 hex digits when the 32-bit flag is set, 4 when clear. -/
def exported_value_hex (mode v : ℕ) : String :=
  if mode &&& O65_MODE_32BIT ≠ 0 then hexStr 8 v else hexStr 4 v

/-- The per-symbol loop of `dump_exported_symbols` (`o65dump.c` lines
307-332): per symbol, a NUL-terminated name, one segment-id byte and a
width-dependent value.  The value read in the 32-bit branch repeats
the source's `fread(buf, 1, 4, file) != 2` comparison. -/
def exported_sym_loop (mode : ℕ) : ℕ → List ℕ → Option (List String × List ℕ)
  | 0, stream => some ([], stream)
  | n + 1, stream =>
    match dump_nul_string stream with
    | none => none
    | some (s, rest) =>
      match rest with
      | [] => none
      | segid :: rest2 =>
        if mode &&& O65_MODE_32BIT = 0 then
          if (rest2.take 2).length ≠ 2 then none
          else
            let value := o65_read_uint16 (rest2.take 2)
            match exported_sym_loop mode n (rest2.drop 2) with
            | none => none
            | some (out, rem) =>
              some (("    " ++ s ++ ", " ++ o65_get_segment_name segid ++ ", 0x" ++
                      hexStr 4 value) :: out, rem)
        else
          if (rest2.take 4).length ≠ 2 then none
          else
            let value := o65_read_uint32 (rest2.take 4)
            match exported_sym_loop mode n (rest2.drop 4) with
            | none => none
            | some (out, rem) =>
              some (("    " ++ s ++ ", " ++ o65_get_segment_name segid ++ ", 0x" ++
                      hexStr 8 value) :: out, rem)

/-- `dump_exported_symbols` of `o65dump.c` (lines 278-334): read the
width-dependent symbol count and dump each entry.  The count read in
the 32-bit branch repeats the source's `fread(buf, 1, 4, file) != 2`
comparison, so a successful 4-byte read is rejected. -/
def dump_exported_symbols (mode : ℕ) (stream : List ℕ) :
    Option (List String × List ℕ) :=
  if mode &&& O65_MODE_32BIT = 0 then
    if (stream.take 2).length ≠ 2 then none
    else
      let count := o65_read_uint16 (stream.take 2)
      let rest := stream.drop 2
      if count = 0 then some (["Exported Symbols: none"], rest)
      else
        match exported_sym_loop mode count rest with
        | none => none
        | some (out, rem) => some ("Exported Symbols:" :: out, rem)
  else
    if (stream.take 4).length ≠ 2 then none
    else
      let count := o65_read_uint32 (stream.take 4)
      let rest := stream.drop 4
      if count = 0 then some (["Exported Symbols: none"], rest)
      else
        match exported_sym_loop mode count rest with
        | none => none
        | some (out, rem) => some ("Exported Symbols:" :: out, rem)

/-- One event of the per-file decode sequence, abstracting the two
stream-consuming calls `dump_file` makes: the outcome of one
`o65_read_header` call (its result code and, on success, the decoded
mode word) or the outcome of one `dump_image` call.  The external
`o65_read_header` and the body of `dump_image` are modelled from the
spec as atomic calls delivering a three-valued result (negative:
I/O failure or EOF, zero: format mismatch / invalid structure,
positive: success). -/
inductive FileEvent where
  | header : ℤ → ℕ → FileEvent
  | image : ℤ → FileEvent
deriving DecidableEq

/-- A diagnostic `dump_file` can emit on the error stream. -/
inductive FileMsg where
  | fileError : FileMsg
  | notFormat : FileMsg
  | invalidFormat : FileMsg
deriving DecidableEq

/-- The do-while loop of `dump_file` (`o65dump.c` lines 446-473): each
iteration reads a header (result `< 0`: `file_error`; result `= 0`:
the "not in .o65 format" message; both abandon the file), then dumps
the image (result `< 0`: `file_error`; result `= 0`: the "invalid
format" message; both abandon the file), and repeats while the mode
word's chain flag is set.  Returns the emitted diagnostics and the
C function's truth value; `none` marks an event list that does not
match the call sequence (never reached by the theorems below).  The
fuel argument is the event-list length, which dominates the iteration
count. -/
def dump_file_loop : ℕ → List FileEvent → Option (List FileMsg × Bool)
  | 0, _ => none
  | _ + 1, FileEvent.header r mode :: rest =>
    if r < 0 then some ([FileMsg.fileError], false)
    else if r = 0 then some ([FileMsg.notFormat], false)
    else
      match rest with
      | FileEvent.image ri :: rest2 =>
        if ri < 0 then some ([FileMsg.fileError], false)
        else if ri = 0 then some ([FileMsg.invalidFormat], false)
        else if mode &&& O65_MODE_CHAIN ≠ 0 then
          dump_file_loop rest2.length rest2
        else some ([], true)
      | _ => none
  | _ + 1, _ => none

/-- `dump_file` of `o65dump.c` (lines 433-478), on an already-open
file whose decode sequence is the given event list. -/
def o65dump_file (events : List FileEvent) : Option (List FileMsg × Bool) :=
  dump_file_loop events.length events

/-- The argument loop of `main` (`o65dump.c` lines 42-49): iterate
`arg` from 1 to `argc - 1`, but — exactly as the source does — pass
`argv[1]` to `dump_file` on every iteration.  `dump_result` abstracts
`dump_file`'s truth value per file name.  The first argument is the
current `exit_val`, the second the number of iterations left; returns
the final exit value and the file names passed to `dump_file`, in
order. -/
def main_go (argv : List String) (dump_result : String → Bool) :
    ℕ → ℕ → ℕ × List String
  | exit_val, 0 => (exit_val, [])
  | exit_val, n + 1 =>
    let f := argv.getD 1 ""
    let ev := if dump_result f then exit_val else 1
    let p := main_go argv dump_result ev n
    (p.1, f :: p.2)

/-- `main` of `o65dump.c` (lines 30-51): with fewer than two arguments
print usage and exit 1; otherwise run the argument loop starting from
`exit_val = 0`, one iteration per command-line file argument. -/
def o65dump_main (argv : List String) (dump_result : String → Bool) :
    ℕ × List String :=
  if argv.length ≤ 1 then (1, [])
  else main_go argv dump_result 0 (argv.length - 1)

theorem hexDigitsGo_length_le (f : ℕ) :
    ∀ v w : ℕ, v < 16 ^ w → (hexDigitsGo f v).length ≤ w := by
  induction f with
  | zero => intro v w _; simp [hexDigitsGo]
  | succ f ih =>
    intro v w hv
    by_cases hv0 : v = 0
    · simp [hexDigitsGo, hv0]
    · cases w with
      | zero =>
        simp at hv
        omega
      | succ w' =>
        have hdiv : v / 16 < 16 ^ w' := by
          have : v < 16 ^ w' * 16 := by
            calc v < 16 ^ (w' + 1) := hv
            _ = 16 ^ w' * 16 := by ring
          exact Nat.div_lt_of_lt_mul (by omega)
        have := ih (v / 16) w' hdiv
        simp [hexDigitsGo, hv0]
        omega

theorem hexStr_length (w v : ℕ) (h : v < 16 ^ w) : (hexStr w v).length = w := by
  have hle : (hexDigitsGo v v).length ≤ w := hexDigitsGo_length_le v v w h
  simp [hexStr, String.length]
  omega

/-- C1: the multi-file loop of `main` indexes `argv[1]` instead of the
loop variable, so with arguments `[valid.o65, missing.bin]` (where
`valid.o65` dumps successfully and `missing.bin` cannot be opened) the
program dumps `valid.o65` twice, never passes `missing.bin` to
`dump_file`, and exits 0 — contradicting the claimed behaviour of
dumping each named file exactly once, reporting `missing.bin`, and
exiting 1. -/
theorem c1_main_always_processes_first_argument :
    o65dump_main ["o65dump", "valid.o65", "missing.bin"]
        (fun f => f == "valid.o65") = (0, ["valid.o65", "valid.o65"]) ∧
    "missing.bin" ∉ (o65dump_main ["o65dump", "valid.o65", "missing.bin"]
        (fun f => f == "valid.o65")).2 ∧
    (o65dump_main ["o65dump", "valid.o65", "missing.bin"]
        (fun f => f == "valid.o65")).1 ≠ 1 := by
  refine ⟨rfl, ?_, by decide⟩
  decide

/-- C2: the 32-bit branches of both symbol-count readers perform
`fread(buf, 1, 4, file)` but test the result against 2, so a zero
count with all four bytes available is rejected as a read failure
instead of rendering "none" and succeeding; the 16-bit branches behave
as claimed. -/
theorem c2_zero_symbol_count_32bit_fails :
    dump_undefined_symbols 0 [0, 0] = some (["Undefined Symbols: none"], []) ∧
    dump_exported_symbols 0 [0, 0] = some (["Exported Symbols: none"], []) ∧
    (∀ rest : List ℕ,
      dump_undefined_symbols O65_MODE_32BIT (0 :: 0 :: 0 :: 0 :: rest) = none) ∧
    (∀ rest : List ℕ,
      dump_exported_symbols O65_MODE_32BIT (0 :: 0 :: 0 :: 0 :: rest) = none) := by
  refine ⟨by decide, by decide, ?_, ?_⟩ <;>
    intro rest <;>
    simp [dump_undefined_symbols, dump_exported_symbols, O65_MODE_32BIT, List.take]

/-- C3: against base `B`, the relocation stream `[255, 255, 5, 0]` is
decoded by seeding the cursor with `B - 1` (in wrapping `o65_size_t`
arithmetic), adding 254 for each skip marker without emitting, adding
5 for the real entry, and stopping at the offset-0 sentinel: exactly
one relocation is reported, at address `B + 254 + 254 + 5 - 1`, and
the stream is fully consumed. -/
theorem c3_skip_aggregation (B : ℕ) (hB : B + 254 + 254 + 5 - 1 < 2 ^ 32) :
    dump_relocs B
      [⟨255, 0, 0, 0⟩, ⟨255, 0, 0, 0⟩, ⟨5, 0x82, 0, 0⟩, ⟨0, 0, 0, 0⟩] =
      some ([(B + 254 + 254 + 5 - 1, ⟨5, 0x82, 0, 0⟩)], []) := by
  simp only [dump_relocs, dump_relocs_go, o65_size_mod]
  norm_num
  omega

theorem c3_skip_aggregation_witness :
    4096 + 254 + 254 + 5 - 1 < 2 ^ 32 ∧
    dump_relocs 4096
      [⟨255, 0, 0, 0⟩, ⟨255, 0, 0, 0⟩, ⟨5, 0x82, 0, 0⟩, ⟨0, 0, 0, 0⟩] =
      some ([(4096 + 254 + 254 + 5 - 1, ⟨5, 0x82, 0, 0⟩)], []) :=
  ⟨by norm_num, c3_skip_aggregation 4096 (by norm_num)⟩

/-- The cursor increment one relocation-stream entry causes: 254 for a
skip marker, otherwise the entry's own offset. -/
def relocIncr (r : o65_reloc_t) : ℕ :=
  if r.offset = 255 then 254 else r.offset

/-- Total cursor movement of a relocation-stream prefix. -/
def incrSum : List o65_reloc_t → ℕ
  | [] => 0
  | r :: l => relocIncr r + incrSum l

/-- The (address, entry) pairs the relocation loop emits when no
modular wrap occurs: plain `ℕ` accumulation from the seeded cursor. -/
def emitAddrs : ℕ → List o65_reloc_t → List (ℕ × o65_reloc_t)
  | _, [] => []
  | a, r :: l =>
    if r.offset = 255 then emitAddrs (a + 254) l
    else (a + r.offset, r) :: emitAddrs (a + r.offset) l

theorem dump_relocs_go_consumes_sentinel (entries : List o65_reloc_t) :
    ∀ (a : ℕ) (rest : List o65_reloc_t) (s : o65_reloc_t),
      (∀ r ∈ entries, r.offset ≠ 0) → s.offset = 0 →
      ∃ out, dump_relocs_go a (entries ++ s :: rest) = some (out, rest) := by
  induction entries with
  | nil =>
    intro a rest s _ hs
    exact ⟨[], by simp [dump_relocs_go, hs]⟩
  | cons r l ih =>
    intro a rest s hoff hs
    have hr0 : r.offset ≠ 0 := hoff r (by simp)
    have htail : ∀ x ∈ l, x.offset ≠ 0 := fun x hx => hoff x (by simp [hx])
    by_cases h255 : r.offset = 255
    · simpa [dump_relocs_go, hr0, h255] using
        ih ((a + 254) % o65_size_mod) rest s htail hs
    · obtain ⟨out, hout⟩ := ih ((a + r.offset) % o65_size_mod) rest s htail hs
      exact ⟨((a + r.offset) % o65_size_mod, r) :: out,
        by simp [dump_relocs_go, hr0, h255, hout]⟩

theorem dump_relocs_go_no_wrap (entries : List o65_reloc_t) :
    ∀ (a : ℕ) (rest : List o65_reloc_t) (s : o65_reloc_t),
      (∀ r ∈ entries, r.offset ≠ 0) → s.offset = 0 →
      a + incrSum entries < 2 ^ 32 →
      dump_relocs_go a (entries ++ s :: rest) = some (emitAddrs a entries, rest) := by
  induction entries with
  | nil =>
    intro a rest s _ hs _
    simp [dump_relocs_go, hs, emitAddrs]
  | cons r l ih =>
    intro a rest s hoff hs hbound
    have hr0 : r.offset ≠ 0 := hoff r (by simp)
    have htail : ∀ x ∈ l, x.offset ≠ 0 := fun x hx => hoff x (by simp [hx])
    by_cases h255 : r.offset = 255
    · have hb : relocIncr r = 254 := by simp [relocIncr, h255]
      have hlt : a + 254 < 2 ^ 32 := by
        simp [incrSum, hb] at hbound
        omega
      have hmod : (a + 254) % o65_size_mod = a + 254 :=
        Nat.mod_eq_of_lt (by simpa [o65_size_mod] using hlt)
      have hrec := ih (a + 254) rest s htail hs
        (by simp [incrSum, hb] at hbound; omega)
      simp [dump_relocs_go, hr0, h255, emitAddrs, hmod, hrec]
    · have hb : relocIncr r = r.offset := by simp [relocIncr, h255]
      have hlt : a + r.offset < 2 ^ 32 := by
        simp [incrSum, hb] at hbound
        omega
      have hmod : (a + r.offset) % o65_size_mod = a + r.offset :=
        Nat.mod_eq_of_lt (by simpa [o65_size_mod] using hlt)
      have hrec := ih (a + r.offset) rest s htail hs
        (by simp [incrSum, hb] at hbound; omega)
      simp [dump_relocs_go, hr0, h255, emitAddrs, hmod, hrec]

theorem emitAddrs_ge_sorted (l : List o65_reloc_t) :
    ∀ a : ℕ,
      (∀ x ∈ (emitAddrs a l).map Prod.fst, a ≤ x) ∧
      List.Pairwise (· ≤ ·) ((emitAddrs a l).map Prod.fst) := by
  induction l with
  | nil => intro a; simp [emitAddrs]
  | cons r l ih =>
    intro a
    by_cases h255 : r.offset = 255
    · refine ⟨?_, by simpa [emitAddrs, h255] using (ih (a + 254)).2⟩
      intro x hx
      have := (ih (a + 254)).1 x (by simpa [emitAddrs, h255] using hx)
      omega
    · constructor
      · intro x hx
        simp [emitAddrs, h255] at hx
        rcases hx with h | h
        · omega
        · have := (ih (a + r.offset)).1 x (by simpa using h)
          omega
      · simp only [emitAddrs, h255, if_false, List.map_cons, List.pairwise_cons]
        refine ⟨?_, (ih (a + r.offset)).2⟩
        intro x hx
        exact (ih (a + r.offset)).1 x hx

/-- C4 counterexample: the relocation cursor is `o65_size_t`
arithmetic and wraps; against base `2 ^ 32 - 3`, the stream
`[2, 5, 0]` decodes to the address sequence
`[2 ^ 32 - 2, 3]`, which is decreasing — so the decoded address
sequence is not non-decreasing for every relocation stream. -/
theorem c4_counterexample :
    (dump_relocs 4294967293
        [⟨2, 0x82, 0, 0⟩, ⟨5, 0x82, 0, 0⟩, ⟨0, 0, 0, 0⟩]).map
        (fun p => p.1.map Prod.fst) = some [4294967294, 3] ∧
    ¬ (4294967294 : ℕ) ≤ 3 := by
  constructor
  · rfl
  · decide

/-- C4 amended: decoding terminates exactly at the first offset-0
entry, consuming exactly that entry and no more, for every relocation
stream; and whenever the cursor does not wrap past `2 ^ 32` (the base
is positive and base plus the total movement stays within range), each
step adds 254 or the entry's offset and the decoded address sequence
is non-decreasing.  (With wrapping, the rendered addresses are the
same values modulo `2 ^ 32` and may decrease.) -/
theorem c4_amended (addr : ℕ) (entries rest : List o65_reloc_t) (s : o65_reloc_t)
    (hoff : ∀ r ∈ entries, r.offset ≠ 0) (hs : s.offset = 0) :
    (∃ out, dump_relocs addr (entries ++ s :: rest) = some (out, rest)) ∧
    (0 < addr → addr + incrSum entries ≤ 2 ^ 32 →
      dump_relocs addr (entries ++ s :: rest) =
        some (emitAddrs (addr - 1) entries, rest) ∧
      List.Pairwise (· ≤ ·) ((emitAddrs (addr - 1) entries).map Prod.fst)) := by
  constructor
  · exact dump_relocs_go_consumes_sentinel entries _ rest s hoff hs
  · intro hpos hbound
    have hseed : (addr + (o65_size_mod - 1)) % o65_size_mod = addr - 1 := by
      simp only [o65_size_mod]
      omega
    constructor
    · rw [dump_relocs, hseed]
      exact dump_relocs_go_no_wrap entries (addr - 1) rest s hoff hs (by omega)
    · exact (emitAddrs_ge_sorted entries (addr - 1)).2

theorem c4_amended_witness :
    (∀ r ∈ ([⟨5, 0x82, 0, 0⟩, ⟨255, 0, 0, 0⟩, ⟨7, 0x83, 0, 1⟩] : List o65_reloc_t),
        r.offset ≠ 0) ∧
    (⟨0, 0, 0, 0⟩ : o65_reloc_t).offset = 0 ∧
    ((∃ out, dump_relocs 4096
        ([⟨5, 0x82, 0, 0⟩, ⟨255, 0, 0, 0⟩, ⟨7, 0x83, 0, 1⟩] ++
          (⟨0, 0, 0, 0⟩ : o65_reloc_t) :: []) = some (out, [])) ∧
      (0 < 4096 → 4096 + incrSum [⟨5, 0x82, 0, 0⟩, ⟨255, 0, 0, 0⟩, ⟨7, 0x83, 0, 1⟩] ≤ 2 ^ 32 →
        dump_relocs 4096
            ([⟨5, 0x82, 0, 0⟩, ⟨255, 0, 0, 0⟩, ⟨7, 0x83, 0, 1⟩] ++
              (⟨0, 0, 0, 0⟩ : o65_reloc_t) :: []) =
          some (emitAddrs (4096 - 1) [⟨5, 0x82, 0, 0⟩, ⟨255, 0, 0, 0⟩, ⟨7, 0x83, 0, 1⟩], []) ∧
        List.Pairwise (· ≤ ·)
          ((emitAddrs (4096 - 1) [⟨5, 0x82, 0, 0⟩, ⟨255, 0, 0, 0⟩, ⟨7, 0x83, 0, 1⟩]).map
            Prod.fst))) :=
  ⟨by decide, rfl,
    c4_amended 4096 [⟨5, 0x82, 0, 0⟩, ⟨255, 0, 0, 0⟩, ⟨7, 0x83, 0, 1⟩] [] ⟨0, 0, 0, 0⟩
      (by decide) rfl⟩

/-- C5 counterexample: a file whose first image succeeds with the
chain flag set and whose second header read then fails with a format
mismatch is reported with the same "not in .o65 format" message as a
first-image mismatch, not with the "invalid format" message the claim
requires for chained iterations. -/
theorem c5_counterexample :
    o65dump_file
        [FileEvent.header 1 O65_MODE_CHAIN, FileEvent.image 1,
         FileEvent.header 0 0] = some ([FileMsg.notFormat], false) ∧
    FileMsg.notFormat ≠ FileMsg.invalidFormat := by
  constructor
  · rfl
  · decide

theorem dump_file_header_mismatch_msg (n m : ℕ) :
    o65dump_file
        ((List.replicate n
            [FileEvent.header 1 O65_MODE_CHAIN, FileEvent.image 1]).flatten ++
          [FileEvent.header 0 m]) = some ([FileMsg.notFormat], false) := by
  induction n with
  | zero => rfl
  | succ k ih =>
    simpa [o65dump_file, List.replicate_succ, dump_file_loop, O65_MODE_CHAIN] using ih

theorem dump_file_image_zero_msg (n : ℕ) :
    o65dump_file
        ((List.replicate n
            [FileEvent.header 1 O65_MODE_CHAIN, FileEvent.image 1]).flatten ++
          [FileEvent.header 1 0, FileEvent.image 0]) =
      some ([FileMsg.invalidFormat], false) := by
  induction n with
  | zero => rfl
  | succ k ih =>
    simpa [o65dump_file, List.replicate_succ, dump_file_loop, O65_MODE_CHAIN] using ih

theorem dump_file_invalid_only_from_image_zero (N : ℕ) :
    ∀ (fuel : ℕ) (events : List FileEvent) (out : List FileMsg) (b : Bool),
      events.length ≤ N →
      dump_file_loop fuel events = some (out, b) →
      FileMsg.invalidFormat ∈ out →
      b = false ∧ FileEvent.image 0 ∈ events := by
  induction N with
  | zero =>
    intro fuel events out b hlen hrun hmem
    have hnil : events = [] := List.eq_nil_of_length_eq_zero (Nat.le_zero.mp hlen)
    subst hnil
    cases fuel <;> simp [dump_file_loop] at hrun
  | succ N ih =>
    intro fuel events out b hlen hrun hmem
    cases fuel with
    | zero => simp [dump_file_loop] at hrun
    | succ f =>
      cases events with
      | nil => simp [dump_file_loop] at hrun
      | cons e rest =>
        cases e with
        | image ri => simp [dump_file_loop] at hrun
        | header r mode =>
          cases rest with
          | nil =>
            rw [dump_file_loop.eq_3] at hrun
            · by_cases hr : r < 0
              · rw [if_pos hr] at hrun
                simp only [Option.some.injEq, Prod.mk.injEq] at hrun
                obtain ⟨h1, _⟩ := hrun
                subst h1
                simp at hmem
              · rw [if_neg hr] at hrun
                by_cases hr0 : r = 0
                · rw [if_pos hr0] at hrun
                  simp only [Option.some.injEq, Prod.mk.injEq] at hrun
                  obtain ⟨h1, _⟩ := hrun
                  subst h1
                  simp at hmem
                · rw [if_neg hr0] at hrun
                  simp at hrun
            · intro ri2 rest3 h
              simp at h
          | cons e2 rest2 =>
            cases e2 with
            | header r2 m2 =>
              rw [dump_file_loop.eq_3] at hrun
              · by_cases hr : r < 0
                · rw [if_pos hr] at hrun
                  simp only [Option.some.injEq, Prod.mk.injEq] at hrun
                  obtain ⟨h1, _⟩ := hrun
                  subst h1
                  simp at hmem
                · rw [if_neg hr] at hrun
                  by_cases hr0 : r = 0
                  · rw [if_pos hr0] at hrun
                    simp only [Option.some.injEq, Prod.mk.injEq] at hrun
                    obtain ⟨h1, _⟩ := hrun
                    subst h1
                    simp at hmem
                  · rw [if_neg hr0] at hrun
                    simp at hrun
              · intro ri2 rest3 h
                simp at h
            | image ri =>
              rw [dump_file_loop.eq_2] at hrun
              by_cases hr : r < 0
              · rw [if_pos hr] at hrun
                simp only [Option.some.injEq, Prod.mk.injEq] at hrun
                obtain ⟨h1, _⟩ := hrun
                subst h1
                simp at hmem
              · rw [if_neg hr] at hrun
                by_cases hr0 : r = 0
                · rw [if_pos hr0] at hrun
                  simp only [Option.some.injEq, Prod.mk.injEq] at hrun
                  obtain ⟨h1, _⟩ := hrun
                  subst h1
                  simp at hmem
                · rw [if_neg hr0] at hrun
                  by_cases hri : ri < 0
                  · rw [if_pos hri] at hrun
                    simp only [Option.some.injEq, Prod.mk.injEq] at hrun
                    obtain ⟨h1, _⟩ := hrun
                    subst h1
                    simp at hmem
                  · rw [if_neg hri] at hrun
                    by_cases hri0 : ri = 0
                    · rw [if_pos hri0] at hrun
                      simp only [Option.some.injEq, Prod.mk.injEq] at hrun
                      obtain ⟨h1, h2⟩ := hrun
                      subst hri0
                      exact ⟨h2.symm, by simp⟩
                    · rw [if_neg hri0] at hrun
                      by_cases hchain : mode &&& O65_MODE_CHAIN ≠ 0
                      · rw [if_pos hchain] at hrun
                        have hlen2 : rest2.length ≤ N := by
                          simp at hlen
                          omega
                        obtain ⟨hb, hm2⟩ := ih rest2.length rest2 out b hlen2 hrun hmem
                        exact ⟨hb, by simp [hm2]⟩
                      · rw [if_neg hchain] at hrun
                        simp only [Option.some.injEq, Prod.mk.injEq] at hrun
                        obtain ⟨h1, _⟩ := hrun
                        subst h1
                        simp at hmem

/-- C5 amended: a header-decode failure (signature absent) is reported
with the "not in .o65 format" diagnostic on every iteration of the
chain loop, first or subsequent, and the file is abandoned
(`dump_file` returns failure, so the batch marks the run failed and
moves on); the "invalid format" diagnostic is produced exactly by an
image-body decode returning 0 — on any iteration it is emitted with
the file abandoned, and whenever it appears in the output at all, the
file was abandoned and some image decode in the file's event sequence
returned 0 (a chained header mismatch never produces it). -/
theorem c5_amended :
    (∀ n m : ℕ,
      o65dump_file
          ((List.replicate n
              [FileEvent.header 1 O65_MODE_CHAIN, FileEvent.image 1]).flatten ++
            [FileEvent.header 0 m]) = some ([FileMsg.notFormat], false)) ∧
    (∀ n : ℕ,
      o65dump_file
          ((List.replicate n
              [FileEvent.header 1 O65_MODE_CHAIN, FileEvent.image 1]).flatten ++
            [FileEvent.header 1 0, FileEvent.image 0]) =
        some ([FileMsg.invalidFormat], false)) ∧
    (∀ (events : List FileEvent) (out : List FileMsg) (b : Bool),
      o65dump_file events = some (out, b) →
      FileMsg.invalidFormat ∈ out →
      b = false ∧ FileEvent.image 0 ∈ events) :=
  ⟨dump_file_header_mismatch_msg, dump_file_image_zero_msg,
    fun events out b hrun hmem =>
      dump_file_invalid_only_from_image_zero events.length events.length events
        out b le_rfl hrun hmem⟩

theorem c5_amended_witness :
    o65dump_file
        ((List.replicate 1
            [FileEvent.header 1 O65_MODE_CHAIN, FileEvent.image 1]).flatten ++
          [FileEvent.header 1 0, FileEvent.image 0]) =
      some ([FileMsg.invalidFormat], false) ∧
    FileMsg.invalidFormat ∈ [FileMsg.invalidFormat] ∧
    (false = false ∧
      FileEvent.image 0 ∈
        [FileEvent.header 1 O65_MODE_CHAIN, FileEvent.image 1,
         FileEvent.header 1 0, FileEvent.image 0]) :=
  ⟨c5_amended.2.1 1, by decide,
    c5_amended.2.2
      [FileEvent.header 1 O65_MODE_CHAIN, FileEvent.image 1,
       FileEvent.header 1 0, FileEvent.image 0]
      [FileMsg.invalidFormat] false (by rfl) (by decide)⟩

/-- The nine header base/length/stack field lines printed by
`dump_image` (`o65dump.c` lines 371-391), without trailing newlines:
`%08lx` fields when the 32-bit flag is set, `%04x` fields when it is
clear. -/
def dump_image_header_fields (h : o65_header_t) : List String :=
  if h.mode &&& O65_MODE_32BIT ≠ 0 then
    ["    tbase = 0x" ++ hexStr 8 h.tbase,
     "    tlen  = 0x" ++ hexStr 8 h.tlen,
     "    dbase = 0x" ++ hexStr 8 h.dbase,
     "    dlen  = 0x" ++ hexStr 8 h.dlen,
     "    bbase = 0x" ++ hexStr 8 h.bbase,
     "    blen  = 0x" ++ hexStr 8 h.blen,
     "    zbase = 0x" ++ hexStr 8 h.zbase,
     "    zlen  = 0x" ++ hexStr 8 h.zlen,
     "    stack = 0x" ++ hexStr 8 h.stack]
  else
    ["    tbase = 0x" ++ hexStr 4 h.tbase,
     "    tlen  = 0x" ++ hexStr 4 h.tlen,
     "    dbase = 0x" ++ hexStr 4 h.dbase,
     "    dlen  = 0x" ++ hexStr 4 h.dlen,
     "    bbase = 0x" ++ hexStr 4 h.bbase,
     "    blen  = 0x" ++ hexStr 4 h.blen,
     "    zbase = 0x" ++ hexStr 4 h.zbase,
     "    zlen  = 0x" ++ hexStr 4 h.zlen,
     "    stack = 0x" ++ hexStr 4 h.stack]

/-- The hex-digit width each rendering site selects from the mode
word: 8 when the 32-bit flag is set, 4 when it is clear. -/
def addrWidth (mode : ℕ) : ℕ :=
  if mode &&& O65_MODE_32BIT ≠ 0 then 8 else 4

/-- All nine header fields lie below a bound. -/
@[reducible] def header_fields_lt (h : o65_header_t) (bound : ℕ) : Prop :=
  h.tbase < bound ∧ h.tlen < bound ∧ h.dbase < bound ∧ h.dlen < bound ∧
  h.bbase < bound ∧ h.blen < bound ∧ h.zbase < bound ∧ h.zlen < bound ∧
  h.stack < bound

/-- C6 counterexample: in 16-bit mode a segment whose byte range
crosses `0xffff` renders a 5-digit dump-line address next to 4-digit
ones (the `%04lx` conversion pads to a minimum of four digits but
never truncates, and the line address is the 32-bit `o65_size_t`
cursor): a `.text` segment at base `0xfff0` of length 32 produces
lines at `0xfff0` (4 digits) and `0x10000` (5 digits) within one
image, so address fields of one 16-bit image are not always 4 digits
wide and mixed widths do occur. -/
theorem c6_counterexample :
    dump_segment ⟨0, 0, 0, 0, 0, 0, 0, 0, 0, 0⟩ ".text" 0xfff0 32
        (List.replicate 32 0) =
      some ([".text: 32 bytes",
             dump_hex_line ⟨0, 0, 0, 0, 0, 0, 0, 0, 0, 0⟩ 0xfff0
               (List.replicate 16 0) 16,
             dump_hex_line ⟨0, 0, 0, 0, 0, 0, 0, 0, 0, 0⟩ 0x10000
               (List.replicate 16 0) 16], []) ∧
    (dump_hex_line_addr 0 0xfff0).length = 4 ∧
    (dump_hex_line_addr 0 0x10000).length = 5 := by
  refine ⟨?_, by decide, by decide⟩
  rfl

/-- C6 amended: every rendering site (segment dump-line addresses,
header base/length fields, relocation addresses, exported-symbol
values) derives its hex width from the same mode-word test — 8 digits
when the 32-bit flag is set, 4 when clear — and renders exactly that
many digits whenever the value fits in the width (always the case for
header fields and symbol values, which are read at that width; segment
dump-line and relocation cursor addresses can exceed `0xffff` in
16-bit mode and then render with more digits, since `%0*lx` pads to a
minimum width but never truncates). -/
theorem c6_amended (mode v : ℕ) (h : o65_header_t) (hmode : h.mode = mode)
    (hv : v < 16 ^ addrWidth mode)
    (hh : header_fields_lt h (16 ^ addrWidth mode)) :
    (dump_hex_line_addr mode v).length = addrWidth mode ∧
    (reloc_addr_str mode v).length = addrWidth mode ∧
    (exported_value_hex mode v).length = addrWidth mode ∧
    (∀ s ∈ dump_image_header_fields h, s.length = 14 + addrWidth mode) ∧
    addrWidth mode = (if mode &&& O65_MODE_32BIT ≠ 0 then 8 else 4) := by
  obtain ⟨h1, h2, h3, h4, h5, h6, h7, h8, h9⟩ := hh
  by_cases hb : mode &&& O65_MODE_32BIT ≠ 0
  · have hw : addrWidth mode = 8 := by simp [addrWidth, hb]
    rw [hw] at hv h1 h2 h3 h4 h5 h6 h7 h8 h9
    refine ⟨?_, ?_, ?_, ?_, by simp [addrWidth, hb]⟩
    · simp [dump_hex_line_addr, hb, hw, hexStr_length 8 v hv]
    · simp [reloc_addr_str, hb, hw, hexStr_length 8 v hv]
    · simp [exported_value_hex, hb, hw, hexStr_length 8 v hv]
    · intro s hs
      simp [dump_image_header_fields, hmode, hb] at hs
      rcases hs with h | h | h | h | h | h | h | h | h <;>
        subst h <;>
        simp [String.length_append, hw, hexStr_length 8 _ h1,
          hexStr_length 8 _ h2, hexStr_length 8 _ h3, hexStr_length 8 _ h4,
          hexStr_length 8 _ h5, hexStr_length 8 _ h6, hexStr_length 8 _ h7,
          hexStr_length 8 _ h8, hexStr_length 8 _ h9] <;>
        decide
  · have hw : addrWidth mode = 4 := by simp [addrWidth, hb]
    rw [hw] at hv h1 h2 h3 h4 h5 h6 h7 h8 h9
    refine ⟨?_, ?_, ?_, ?_, by simp [addrWidth, hb]⟩
    · simp [dump_hex_line_addr, hb, hw, hexStr_length 4 v hv]
    · simp [reloc_addr_str, hb, hw, hexStr_length 4 v hv]
    · simp [exported_value_hex, hb, hw, hexStr_length 4 v hv]
    · intro s hs
      simp [dump_image_header_fields, hmode, hb] at hs
      rcases hs with h | h | h | h | h | h | h | h | h <;>
        subst h <;>
        simp [String.length_append, hw, hexStr_length 4 _ h1,
          hexStr_length 4 _ h2, hexStr_length 4 _ h3, hexStr_length 4 _ h4,
          hexStr_length 4 _ h5, hexStr_length 4 _ h6, hexStr_length 4 _ h7,
          hexStr_length 4 _ h8, hexStr_length 4 _ h9] <;>
        decide

theorem c6_amended_witness :
    (123 : ℕ) < 16 ^ addrWidth 0x2000 ∧
    header_fields_lt ⟨0x2000, 1, 2, 3, 4, 5, 6, 7, 8, 9⟩ (16 ^ addrWidth 0x2000) ∧
    ((dump_hex_line_addr 0x2000 123).length = addrWidth 0x2000 ∧
     (reloc_addr_str 0x2000 123).length = addrWidth 0x2000 ∧
     (exported_value_hex 0x2000 123).length = addrWidth 0x2000 ∧
     (∀ s ∈ dump_image_header_fields ⟨0x2000, 1, 2, 3, 4, 5, 6, 7, 8, 9⟩,
        s.length = 14 + addrWidth 0x2000) ∧
     addrWidth 0x2000 = (if (0x2000 : ℕ) &&& O65_MODE_32BIT ≠ 0 then 8 else 4)) :=
  ⟨by decide, by decide,
    c6_amended 0x2000 123 ⟨0x2000, 1, 2, 3, 4, 5, 6, 7, 8, 9⟩ rfl
      (by decide) (by decide)⟩

theorem dump_image_options_after_first (opts : List o65_option_t) :
    ∀ (rest : List o65_option_t) (term : o65_option_t),
      (∀ o ∈ opts, o.len ≠ 0) → term.len = 0 →
      dump_image_options true (opts ++ term :: rest) =
        some (opts.map (fun o => OptOut.optionLine (dump_option o)), rest) := by
  induction opts with
  | nil =>
    intro rest term _ ht
    simp [dump_image_options, ht]
  | cons o l ih =>
    intro rest term hlen ht
    have ho : o.len ≠ 0 := hlen o (by simp)
    have htail : ∀ x ∈ l, x.len ≠ 0 := fun x hx => hlen x (by simp [hx])
    simp [dump_image_options, ho, ih rest term htail ht]

/-- C7: decoding an option list of N well-formed (nonzero-length)
records followed by a zero-length record renders exactly the N option
lines in order, consumes exactly the terminator (the records after it
are returned unconsumed), and emits the section header exactly once
before the first option — so no header at all when N = 0. -/
theorem c7_option_list_framing (opts rest : List o65_option_t) (term : o65_option_t)
    (hlen : ∀ o ∈ opts, o.len ≠ 0) (ht : term.len = 0) :
    dump_image_options false (opts ++ term :: rest) =
      some ((if opts = [] then []
             else OptOut.sectionHeader ::
               opts.map (fun o => OptOut.optionLine (dump_option o))), rest) := by
  cases opts with
  | nil => simp [dump_image_options, ht]
  | cons o l =>
    have ho : o.len ≠ 0 := hlen o (by simp)
    have htail : ∀ x ∈ l, x.len ≠ 0 := fun x hx => hlen x (by simp [hx])
    simp [dump_image_options, ho,
      dump_image_options_after_first l rest term htail ht]

theorem c7_option_list_framing_witness :
    (∀ o ∈ ([⟨0, 10, [72, 73]⟩, ⟨7, 3, [1]⟩] : List o65_option_t), o.len ≠ 0) ∧
    (⟨0, 0, []⟩ : o65_option_t).len = 0 ∧
    dump_image_options false
        (([⟨0, 10, [72, 73]⟩, ⟨7, 3, [1]⟩] : List o65_option_t) ++
          (⟨0, 0, []⟩ : o65_option_t) :: [⟨9, 9, []⟩]) =
      some ((if ([⟨0, 10, [72, 73]⟩, ⟨7, 3, [1]⟩] : List o65_option_t) = [] then []
             else OptOut.sectionHeader ::
               ([⟨0, 10, [72, 73]⟩, ⟨7, 3, [1]⟩] : List o65_option_t).map
                 (fun o => OptOut.optionLine (dump_option o))), [⟨9, 9, []⟩]) :=
  ⟨by decide, rfl,
    c7_option_list_framing [⟨0, 10, [72, 73]⟩, ⟨7, 3, [1]⟩] [⟨9, 9, []⟩]
      ⟨0, 0, []⟩ (by decide) rfl⟩

/-- C8: for a real relocation entry, a HIGH relocation prints its
extra byte exactly when the page-wise mode flag is clear; a SEG
relocation always prints its extra byte as a 4-digit value; any kind
code outside the enumeration renders as `RELOC-<hex kind>`; and no
kind code whatsoever makes the relocation loop fail — an entry of any
kind followed by the sentinel still decodes successfully. -/
theorem c8_reloc_kind_rendering (mode : ℕ) (r : o65_reloc_t) :
    (r.type &&& O65_RELOC_TYPE = O65_RELOC_HIGH →
      reloc_kind_str mode r =
        (if mode &&& O65_MODE_PAGED = 0 then "HIGH " ++ hexStr 2 r.extra
         else "HIGH")) ∧
    (r.type &&& O65_RELOC_TYPE = O65_RELOC_SEG →
      reloc_kind_str mode r = "SEG " ++ hexStr 4 r.extra) ∧
    (r.type &&& O65_RELOC_TYPE ∉
        ([O65_RELOC_WORD, O65_RELOC_LOW, O65_RELOC_SEGADR, O65_RELOC_HIGH,
          O65_RELOC_SEG] : List ℕ) →
      reloc_kind_str mode r =
        "RELOC-" ++ hexStr 2 (r.type &&& O65_RELOC_TYPE)) ∧
    (∀ (addr : ℕ) (rest : List o65_reloc_t),
      (dump_relocs_go addr (r :: (⟨0, 0, 0, 0⟩ : o65_reloc_t) :: rest)).isSome) := by
  refine ⟨?_, ?_, ?_, ?_⟩
  · intro hk
    simp [reloc_kind_str, hk, O65_RELOC_HIGH, O65_RELOC_WORD, O65_RELOC_LOW,
      O65_RELOC_SEGADR]
  · intro hk
    simp [reloc_kind_str, hk, O65_RELOC_SEG, O65_RELOC_WORD, O65_RELOC_LOW,
      O65_RELOC_SEGADR, O65_RELOC_HIGH]
  · intro hk
    simp at hk
    simp [reloc_kind_str, hk.1, hk.2.1, hk.2.2.1, hk.2.2.2.1, hk.2.2.2.2]
  · intro addr rest
    by_cases h0 : r.offset = 0
    · simp [dump_relocs_go, h0]
    · by_cases h255 : r.offset = 255
      · simp [dump_relocs_go, h0, h255]
      · simp [dump_relocs_go, h0, h255]

theorem c8_reloc_kind_rendering_witness :
    ((⟨3, 0x42, 0xab, 0⟩ : o65_reloc_t).type &&& O65_RELOC_TYPE = O65_RELOC_HIGH ∧
      reloc_kind_str 0 ⟨3, 0x42, 0xab, 0⟩ =
        (if (0 : ℕ) &&& O65_MODE_PAGED = 0 then
          "HIGH " ++ hexStr 2 (⟨3, 0x42, 0xab, 0⟩ : o65_reloc_t).extra
         else "HIGH")) ∧
    ((⟨3, 0x65, 0, 0⟩ : o65_reloc_t).type &&& O65_RELOC_TYPE ∉
        ([O65_RELOC_WORD, O65_RELOC_LOW, O65_RELOC_SEGADR, O65_RELOC_HIGH,
          O65_RELOC_SEG] : List ℕ) ∧
      reloc_kind_str 0 ⟨3, 0x65, 0, 0⟩ =
        "RELOC-" ++ hexStr 2 ((⟨3, 0x65, 0, 0⟩ : o65_reloc_t).type &&& O65_RELOC_TYPE)) ∧
    (dump_relocs_go 77 [⟨3, 0x65, 0, 0⟩, ⟨0, 0, 0, 0⟩]).isSome :=
  ⟨⟨by decide, (c8_reloc_kind_rendering 0 ⟨3, 0x42, 0xab, 0⟩).1 (by decide)⟩,
   ⟨by decide, (c8_reloc_kind_rendering 0 ⟨3, 0x65, 0, 0⟩).2.2.1 (by decide)⟩,
   (c8_reloc_kind_rendering 0 ⟨3, 0x65, 0, 0⟩).2.2.2 77 []⟩

theorem dump_string_go_cons (ch : ℕ) (rest : List ℕ) :
    dump_string_go (ch :: rest) (rest.length + 1) =
      dump_string_byte ch ++ dump_string_go rest rest.length := rfl

theorem dump_string_split_at_nul (pre post : List ℕ) :
    dump_string (pre ++ 0 :: post) (((pre ++ 0 :: post).length : ℕ) : ℤ) =
      dump_string pre ((pre.length : ℕ) : ℤ) ++
        dump_string post ((post.length : ℕ) : ℤ) := by
  simp only [dump_string, Int.toNat_natCast]
  induction pre with
  | nil =>
    show dump_string_go (0 :: post) (post.length + 1) = dump_string_go [] 0 ++ _
    rw [dump_string_go_cons]
    simp [dump_string_byte, dump_string_go]
  | cons x xs ih =>
    show dump_string_go (x :: (xs ++ 0 :: post)) ((xs ++ 0 :: post).length + 1) = _
    rw [dump_string_go_cons, ih]
    show _ = dump_string_go (x :: xs) (xs.length + 1) ++ _
    rw [dump_string_go_cons, String.append_assoc]

theorem dump_nul_string_split (pre post : List ℕ) (h : 0 ∉ pre) :
    dump_nul_string (pre ++ 0 :: post) =
      some (dump_string pre ((pre.length : ℕ) : ℤ), post) := by
  induction pre with
  | nil => simp [dump_nul_string, dump_string, dump_string_go]
  | cons x xs ih =>
    have hx : x ≠ 0 := by intro hx0; exact h (by simp [hx0])
    have hxs : 0 ∉ xs := fun hm => h (by simp [hm])
    simp only [dump_string, Int.toNat_natCast] at ih ⊢
    show dump_nul_string (x :: (xs ++ 0 :: post)) = _
    rw [dump_nul_string]
    simp only [hx, if_false, if_neg hx, ih hxs]
    show some (_ ++ _, post) = some (dump_string_go (x :: xs) (xs.length + 1), post)
    rw [dump_string_go_cons]
    simp [dump_string_byte]

/-- C9: when `dump_string` renders an option payload, a NUL byte is
silently dropped — not printed, not hex-escaped, and not a terminator
(the bytes after it are still rendered) — whereas `dump_nul_string`
treats byte 0 as the end of the name, consuming it and touching
nothing beyond; in both renderers printable ASCII (0x20-0x7e) passes
through verbatim and any other nonzero byte becomes a two-digit hex
escape. -/
theorem c9_nul_byte_handling (pre post : List ℕ) (ch : ℕ) (hpre : 0 ∉ pre)
    (hch : ¬(32 ≤ ch ∧ ch ≤ 126)) (hch0 : ch ≠ 0) :
    dump_string (pre ++ 0 :: post) (((pre ++ 0 :: post).length : ℕ) : ℤ) =
      dump_string pre ((pre.length : ℕ) : ℤ) ++
        dump_string post ((post.length : ℕ) : ℤ) ∧
    dump_string [0] 1 = "" ∧
    dump_string [ch] 1 = "\\x" ++ hexStr 2 ch ∧
    (∀ c : ℕ, 32 ≤ c → c ≤ 126 → dump_string [c] 1 = String.mk [Char.ofNat c]) ∧
    dump_nul_string (pre ++ 0 :: post) =
      some (dump_string pre ((pre.length : ℕ) : ℤ), post) := by
  refine ⟨dump_string_split_at_nul pre post, rfl, ?_, ?_,
    dump_nul_string_split pre post hpre⟩
  · simp [dump_string, dump_string_go, dump_string_byte, hch, hch0]
  · intro c hc1 hc2
    simp [dump_string, dump_string_go, dump_string_byte, hc1, hc2]

theorem c9_nul_byte_handling_witness :
    (0 : ℕ) ∉ ([65, 200] : List ℕ) ∧
    ¬(32 ≤ (7 : ℕ) ∧ (7 : ℕ) ≤ 126) ∧
    (7 : ℕ) ≠ 0 ∧
    (dump_string (([65, 200] : List ℕ) ++ 0 :: [66])
          (((([65, 200] : List ℕ) ++ 0 :: [66]).length : ℕ) : ℤ) =
        dump_string [65, 200] ((([65, 200] : List ℕ).length : ℕ) : ℤ) ++
          dump_string [66] ((([66] : List ℕ).length : ℕ) : ℤ) ∧
      dump_string [0] 1 = "" ∧
      dump_string [7] 1 = "\\x" ++ hexStr 2 7 ∧
      (∀ c : ℕ, 32 ≤ c → c ≤ 126 → dump_string [c] 1 = String.mk [Char.ofNat c]) ∧
      dump_nul_string (([65, 200] : List ℕ) ++ 0 :: [66]) =
        some (dump_string [65, 200] ((([65, 200] : List ℕ).length : ℕ) : ℤ), [66])) :=
  ⟨by decide, by decide, by decide,
    c9_nul_byte_handling [65, 200] [66] 7 (by decide) (by decide) (by decide)⟩

/-- C10: both payload renderers guard their loops on the remaining
length being strictly positive, so a non-positive `int` length — in
particular the `length - 2` computed for a record of declared length
1 — renders zero payload bytes and returns normally; consequently
`dump_option` on a length-1 record emits its label and an empty
payload, independent of whatever bytes sit in the payload buffer. -/
theorem c10_negative_payload_length_noop (data payload : List ℕ) (len : ℤ)
    (hlen : len < 2) (t : ℕ) :
    dump_string data (len - 2) = "" ∧
    dump_hex data (len - 2) = "" ∧
    dump_option ⟨t, 1, payload⟩ = dump_option ⟨t, 1, []⟩ := by
  have htn : (len - 2).toNat = 0 := Int.toNat_of_nonpos (by omega)
  have h1 : ((1 : ℕ) : ℤ) - 2 = -1 := by norm_num
  refine ⟨?_, ?_, ?_⟩
  · simp [dump_string, htn, dump_string_go]
  · simp [dump_hex, htn, dump_hex_go]
  · simp [dump_option, h1, dump_string, dump_hex, dump_string_go, dump_hex_go]

theorem c10_negative_payload_length_noop_witness :
    ((-1 : ℤ) < 2) ∧
    (dump_string [170, 187] ((-1 : ℤ) - 2) = "" ∧
      dump_hex [170, 187] ((-1 : ℤ) - 2) = "" ∧
      dump_option ⟨0, 1, [170, 187]⟩ = dump_option ⟨0, 1, []⟩) :=
  ⟨by decide, c10_negative_payload_length_noop [170, 187] [170, 187] (-1) (by decide) 0⟩
